import Mathlib

set_option maxRecDepth 10000

/- Batteries marks the `Rat` arithmetic operations `@[irreducible]`, which
blocks `decide`/`rfl` evaluation of concrete rational computations in the
elaborator (the kernel is unaffected).  Re-mark them locally so that the
concrete witnesses and counterexamples below can be checked by evaluation. -/
set_option allowUnsafeReducibility true
attribute [local semireducible] Rat.add Rat.mul Rat.inv Rat.sub Rat.div Rat.neg
  Rat.ofScientific

/-!
# Verification of the `mechanical_testing` tensile-test analysis pipeline

This file is a shallow embedding, in Lean 4, of the analysis core of
`mechanical_testing/TensileTest.py`.  Machine floating-point values are
modelled as exact rationals (`ℚ`); the numeric sequences of the test record
are modelled as `List ℚ`.  Fallible Python operations (exceptions such as
`KeyError`, `IndexError`, `UnboundLocalError`, and the arity error raised by
`scipy.optimize.curve_fit`) are modelled with `Option`/`Except`.

Two numerical routines of external libraries are embedded by their exact
mathematical definitions:

* `np.polyfit(x, y, 1, cov=True)` computes the ordinary-least-squares line
  and its parameter covariance matrix; for a degree-1 fit the `(0,0)` entry
  of the covariance matrix is `L * RSS / ((L*Σx² - (Σx)²) * (L - 4))`, where
  `RSS` is the residual sum of squares of the fit and `L = len(x)`: numpy
  scales the inverse normal matrix by `resids / (len(x) - order - 2.0)` with
  `order = deg + 1 = 2` (the "Bayesian" Student-t factor of `np.polyfit`).
* `scipy.integrate.trapz` is the trapezoidal rule
  `Σ (x[i+1]-x[i]) * (y[i]+y[i+1]) / 2`.

The source's proportionality scan compares *square roots* of the covariance
entries (`residual = np.sqrt(np.diag(fullResidual)[0])`).  Square roots of
nonnegative rationals are irrational in general, so the executable scan below
compares the squared residuals instead; `Real.sqrt` is strictly monotone on
nonnegative arguments, so the selected prefix is the same, and the theorems
about the scan are stated through `Real.sqrt` of the covariance entries.

Two genuinely floating-point-iterative collaborators cannot be embedded
exactly and are taken as parameters of the pipeline:

* `rlog : ℚ → ℚ` models `np.log` (used only to build the "real" curves);
* `fit : List ℚ → List ℚ → ℚ × ℚ` models the converged result of
  `scipy.optimize.curve_fit` on Hollomon's equation (used only for the two
  hardening coefficients).  `curve_fit` raises when given fewer data points
  than parameters; that arity check is kept explicitly.

No claim settled here depends on the values produced by `rlog` or `fit`.
-/

namespace MechTest

/-- The IEEE-754 double value of `np.pi`, as an exact rational
(`3.141592653589793115997963468544185161590576171875`). -/
def piFloat : ℚ := 884279719003555 / 281474976710656

/-- Sum of the squares of the entries of a list. -/
def sumSq (l : List ℚ) : ℚ := (l.map (fun x => x ^ 2)).sum

/-- Determinant-like quantity `L*Σx² - (Σx)²` of the degree-1 least-squares
normal matrix for abscissae `xs` (with `L = xs.length`). -/
def fitDet (xs : List ℚ) : ℚ := (xs.length : ℚ) * sumSq xs - xs.sum ^ 2

/-- Slope of the ordinary-least-squares degree-1 fit of `ys` against `xs`:
`(L*Σxy - Σx*Σy) / (L*Σx² - (Σx)²)`.  This is `np.polyfit(x, y, 1)[0]`. -/
def fitSlope (xs ys : List ℚ) : ℚ :=
  ((xs.length : ℚ) * (List.zipWith (· * ·) xs ys).sum - xs.sum * ys.sum) / fitDet xs

/-- Intercept of the ordinary-least-squares degree-1 fit:
`(Σy - slope*Σx) / L`.  This is `np.polyfit(x, y, 1)[1]`. -/
def fitIntercept (xs ys : List ℚ) : ℚ :=
  (ys.sum - fitSlope xs ys * xs.sum) / (xs.length : ℚ)

/-- Residual sum of squares of the degree-1 least-squares fit. -/
def fitRSS (xs ys : List ℚ) : ℚ :=
  (List.zipWith (fun x y => (y - (fitSlope xs ys * x + fitIntercept xs ys)) ^ 2) xs ys).sum

/-- The `(0,0)` entry of the parameter covariance matrix returned by
`np.polyfit(x, y, 1, cov=True)`: the inverse normal matrix entry
`L / (L*Σx² - (Σx)²)` scaled by numpy's factor
`resids / (len(x) - order - 2.0)` with `order = deg + 1 = 2`, i.e.
`RSS / (L - 4)`. -/
def fitCov00 (xs ys : List ℚ) : ℚ :=
  ((xs.length : ℚ) * fitRSS xs ys) / (fitDet xs * ((xs.length : ℚ) - 4))

/-- Squared residual of the scan at prefix length `L`:
`fitCov00` of the first `L` samples of the curve.  The Python residual is
the square root of this quantity. -/
def cov00At (strain stress : List ℚ) (L : ℕ) : ℚ :=
  fitCov00 (strain.take L) (stress.take L)

/-- Fitted slope of the scan at prefix length `L`. -/
def slopeAt (strain stress : List ℚ) (L : ℕ) : ℚ :=
  fitSlope (strain.take L) (stress.take L)

/-- One iteration of the proportionality-limit loop.  The accumulator holds
`(minimumResidual², angularCoefficient, proportionalityLimitLocation)`, or
`none` before the first iteration (Python initialises the minimum to `+inf`,
so the first iteration always stores its fit). The update happens exactly
when the new residual is strictly smaller (`residual < minimumResidual`);
residuals are compared through their squares `f`, which preserves the
comparison since `Real.sqrt` is strictly monotone on nonnegative values. -/
def selStep (f g : ℕ → ℚ) (acc : Option (ℚ × ℚ × ℕ)) (L : ℕ) : Option (ℚ × ℚ × ℕ) :=
  match acc with
  | none => some (f L, g L, L)
  | some (m, s, w) => if f L < m then some (f L, g L, L) else some (m, s, w)

/-- The proportionality-limit loop over a list of candidate prefix lengths. -/
def selLoop (f g : ℕ → ℚ) : List ℕ → Option (ℚ × ℚ × ℕ) → Option (ℚ × ℚ × ℕ)
  | [], acc => acc
  | L :: rest, acc => selLoop f g rest (selStep f g acc L)

/-- The proportionality-limit scan of
`_defineElasticModulusAndProportionalityLimit`: iterate over prefix lengths
`np.arange(10, len(stress))`, i.e. `10, 11, …, len(stress) - 1`, tracking the
first strict minimiser of the residual.  Returns `none` when the loop body
never runs (then the Python function raises `UnboundLocalError`). -/
def propScan (strain stress : List ℚ) : Option (ℚ × ℚ × ℕ) :=
  selLoop (cov00At strain stress) (slopeAt strain stress)
    (List.range' 10 (stress.length - 10)) none

/-- `_defineElasticModulusAndProportionalityLimit`: the winning slope becomes
the elastic modulus and the *curve samples* at index `proportionalityLimitLocation`
become the proportionality point.  Result `(elasticModulus,
proportionalityStrain, proportionalityStrength)`. -/
def defineElasticModulusAndProportionalityLimit (strain stress : List ℚ) :
    Option (ℚ × ℚ × ℚ) :=
  (propScan strain stress).map (fun r => (r.2.1, strain.getD r.2.2 0, stress.getD r.2.2 0))

/-- Index of the first sample at which `stress - E*(strain - n) < 0`, i.e.
`np.argwhere(self.stress - elasticLine(n) < 0).flatten()[0]`;
`none` models the `IndexError` raised when no sample qualifies. -/
def firstCrossIdx (E n : ℚ) : List ℚ → List ℚ → Option ℕ
  | s :: ss, t :: ts =>
      if t - E * (s - n) < 0 then some 0 else (firstCrossIdx E n ss ts).map (· + 1)
  | _, _ => none

/-- `offsetYieldPoint(n)`: the curve samples at the first index where the
curve drops strictly below the offset elastic line. -/
def offsetYieldPoint (elasticModulus : ℚ) (strain stress : List ℚ) (n : ℚ) :
    Option (ℚ × ℚ) :=
  (firstCrossIdx elasticModulus n strain stress).map
    (fun i => (strain.getD i 0, stress.getD i 0))

/-- `_defineYieldStrength`: the stored yield point is `offsetYieldPoint(0.2E-2)`. -/
def defineYieldStrength (elasticModulus : ℚ) (strain stress : List ℚ) :
    Option (ℚ × ℚ) :=
  offsetYieldPoint elasticModulus strain stress (2 / 1000)

/-- First index of the maximum of a list together with the maximum value
(`np.argmax` convention: the first maximal index wins); `none` on `[]`. -/
def argmaxIdxVal : List ℚ → Option (ℕ × ℚ)
  | [] => none
  | a :: t =>
      match argmaxIdxVal t with
      | none => some (0, a)
      | some (j, m) => if m > a then some (j + 1, m) else some (0, a)

/-- `_defineUltimateStrength`: curve samples at `np.argmax(stress)`. -/
def defineUltimateStrength (strain stress : List ℚ) : Option (ℚ × ℚ) :=
  (argmaxIdxVal stress).map (fun r => (strain.getD r.1 0, stress.getD r.1 0))

/-- `_correctYieldStrength`: when `yieldStrain > ultimateStrain`, the yield
point is replaced by the proportionality point (and a warning is emitted,
modelled by the boolean flag). -/
def correctYieldStrength (yieldPoint propPoint : ℚ × ℚ) (ultimateStrain : ℚ) :
    (ℚ × ℚ) × Bool :=
  if yieldPoint.1 > ultimateStrain then (propPoint, true) else (yieldPoint, false)

/-- The boolean mask application of the region stages: keep the
`(strain, stress)` pairs whose strain satisfies the predicate. -/
def maskPairs (strain stress : List ℚ) (p : ℚ → Bool) : List (ℚ × ℚ) :=
  (List.zip strain stress).filter (fun q => p q.1)

/-- `_defineElasticBehavior`: samples with `strain < yieldStrain`. -/
def elasticRegion (strain stress : List ℚ) (yieldStrain : ℚ) : List ℚ × List ℚ :=
  ((maskPairs strain stress (fun s => s < yieldStrain)).map Prod.fst,
   (maskPairs strain stress (fun s => s < yieldStrain)).map Prod.snd)

/-- `_definePlasticBehavior`: samples with `yieldStrain < strain < ultimateStrain`. -/
def plasticRegion (strain stress : List ℚ) (yieldStrain ultimateStrain : ℚ) :
    List ℚ × List ℚ :=
  ((maskPairs strain stress (fun s => yieldStrain < s && s < ultimateStrain)).map Prod.fst,
   (maskPairs strain stress (fun s => yieldStrain < s && s < ultimateStrain)).map Prod.snd)

/-- `_defineNeckingBehavior`: samples with `ultimateStrain < strain`. -/
def neckingRegion (strain stress : List ℚ) (ultimateStrain : ℚ) : List ℚ × List ℚ :=
  ((maskPairs strain stress (fun s => ultimateStrain < s)).map Prod.fst,
   (maskPairs strain stress (fun s => ultimateStrain < s)).map Prod.snd)

/-- `scipy.integrate.trapz`: trapezoidal integration of the second
coordinates over the first coordinates. -/
def trapz : List (ℚ × ℚ) → ℚ
  | p :: q :: rest => (q.1 - p.1) * (p.2 + q.2) / 2 + trapz (q :: rest)
  | _ => 0

/-- `_defineResilienceModulus`: trapezoidal integral over the elastic region. -/
def defineResilienceModulus (elasticStrain elasticStress : List ℚ) : ℚ :=
  trapz (List.zip elasticStrain elasticStress)

/-- `_defineToughnessModulus`: trapezoidal integral over the whole curve. -/
def defineToughnessModulus (strain stress : List ℚ) : ℚ :=
  trapz (List.zip strain stress)

/-- `_engineering2real`: `realStrain = log(1 + strain)`,
`realStress = stress * (1 + strain)`; `rlog` models `np.log`. -/
def engineering2real (rlog : ℚ → ℚ) (strain stress : List ℚ) : List ℚ × List ℚ :=
  (strain.map (fun s => rlog (1 + s)),
   List.zipWith (fun s t => t * (1 + s)) strain stress)

/-- `_defineHardening`: fit Hollomon's equation on the real plastic curve.
`scipy.optimize.curve_fit` raises a `TypeError` when the number of data
points is smaller than the number of parameters (here 2); the converged fit
itself is the parameter `fit`. -/
def defineHardening (fit : List ℚ → List ℚ → ℚ × ℚ) (rlog : ℚ → ℚ)
    (plasticStrain plasticStress : List ℚ) : Except String (ℚ × ℚ) :=
  let rp := engineering2real rlog plasticStrain plasticStress
  if rp.1.length < 2 then
    Except.error "TypeError: func parameters exceed data points"
  else
    Except.ok (fit rp.1 rp.2)

/-- Lift an optional value to `Except`, with the message of the Python
exception raised when the value is absent. -/
def toExcept (msg : String) : Option α → Except String α
  | none => Except.error msg
  | some a => Except.ok a

/-- The analysed test record: every attribute the constructor assigns. -/
structure TensileTestRecord where
  force : List ℚ
  displacement : List ℚ
  time : List ℚ
  length : ℚ
  diameter : ℚ
  area : ℚ
  strain : List ℚ
  stress : List ℚ
  realStrain : List ℚ
  realStress : List ℚ
  elasticModulus : ℚ
  proportionalityStrain : ℚ
  proportionalityStrength : ℚ
  yieldStrain : ℚ
  yieldStrength : ℚ
  ultimateStrain : ℚ
  ultimateStrength : ℚ
  yieldWasCorrected : Bool
  elasticStrain : List ℚ
  elasticStress : List ℚ
  plasticStrain : List ℚ
  plasticStress : List ℚ
  neckingStrain : List ℚ
  neckingStress : List ℚ
  resilienceModulus : ℚ
  toughnessModulus : ℚ
  strengthCoefficient : ℚ
  strainHardeningExponent : ℚ
  deriving Repr, DecidableEq

/-- Assembly of the analysed record from the stage results.  The real curve
(`_defineRealCurve`) is pure and total, so computing it here rather than
between the engineering curve and the scan does not change the failure
order of the constructor. -/
def assembleRecord (force displacement time : List ℚ) (length diameter area : ℚ)
    (strain stress : List ℚ) (rlog : ℚ → ℚ) (scanned : ℚ × ℚ × ℚ)
    (corrected : (ℚ × ℚ) × Bool) (ultimate : ℚ × ℚ) (K : ℚ × ℚ) :
    TensileTestRecord :=
  { force := force
    displacement := displacement
    time := time
    length := length
    diameter := diameter
    area := area
    strain := strain
    stress := stress
    realStrain := (engineering2real rlog strain stress).1
    realStress := (engineering2real rlog strain stress).2
    elasticModulus := scanned.1
    proportionalityStrain := scanned.2.1
    proportionalityStrength := scanned.2.2
    yieldStrain := corrected.1.1
    yieldStrength := corrected.1.2
    ultimateStrain := ultimate.1
    ultimateStrength := ultimate.2
    yieldWasCorrected := corrected.2
    elasticStrain := (elasticRegion strain stress corrected.1.1).1
    elasticStress := (elasticRegion strain stress corrected.1.1).2
    plasticStrain := (plasticRegion strain stress corrected.1.1 ultimate.1).1
    plasticStress := (plasticRegion strain stress corrected.1.1 ultimate.1).2
    neckingStrain := (neckingRegion strain stress ultimate.1).1
    neckingStress := (neckingRegion strain stress ultimate.1).2
    resilienceModulus := defineResilienceModulus
      (elasticRegion strain stress corrected.1.1).1
      (elasticRegion strain stress corrected.1.1).2
    toughnessModulus := defineToughnessModulus strain stress
    strengthCoefficient := K.1
    strainHardeningExponent := K.2 }

/-- The stage sequence of `TensileTest.__init__` after the file has been
read, in source order: dimensions, engineering curve, real curve,
elastic-modulus/proportionality scan, yield strength, ultimate strength,
yield correction, the three regions, the two energy moduli, hardening. -/
def pipelineFromArrays (force displacement time : List ℚ) (length diameter : ℚ)
    (rlog : ℚ → ℚ) (fit : List ℚ → List ℚ → ℚ × ℚ) :
    Except String TensileTestRecord := do
  let area := piFloat * diameter ^ 2 / 4
  let strain := displacement.map (fun d => d / length)
  let stress := force.map (fun f => f / area)
  let scanned ← toExcept "UnboundLocalError: proportionalityLimitLocation"
    (defineElasticModulusAndProportionalityLimit strain stress)
  let yield0 ← toExcept "IndexError: index 0 is out of bounds"
    (defineYieldStrength scanned.1 strain stress)
  let ultimate ← toExcept "ValueError: attempt to get argmax of an empty sequence"
    (defineUltimateStrength strain stress)
  let corrected := correctYieldStrength yield0 (scanned.2.1, scanned.2.2) ultimate.1
  let K ← defineHardening fit rlog
    (plasticRegion strain stress corrected.1.1 ultimate.1).1
    (plasticRegion strain stress corrected.1.1 ultimate.1).2
  Except.ok (assembleRecord force displacement time length diameter area
    strain stress rlog scanned corrected ultimate K)

/-- Column lookup in the tabular input, modelling `df[name]`. -/
def lookupColumn (df : List (String × List ℚ)) (name : String) : Option (List ℚ) :=
  (df.find? (fun c => c.1 == name)).map Prod.snd

/-- `_readFromFile`: extract the three named columns; a missing column is a
`KeyError` raised by the column lookup, before any derived stage. -/
def readFromFile (df : List (String × List ℚ)) :
    Except String (List ℚ × List ℚ × List ℚ) := do
  let force ← toExcept "KeyError: force" (lookupColumn df "force")
  let displacement ← toExcept "KeyError: displacement" (lookupColumn df "displacement")
  let time ← toExcept "KeyError: time" (lookupColumn df "time")
  Except.ok (force, displacement, time)

/-- `TensileTest.__init__`: read the columns, then run every derived stage. -/
def tensileTest (df : List (String × List ℚ)) (length diameter : ℚ)
    (rlog : ℚ → ℚ) (fit : List ℚ → List ℚ → ℚ × ℚ) :
    Except String TensileTestRecord := do
  let cols ← readFromFile df
  pipelineFromArrays cols.1 cols.2.1 cols.2.2 length diameter rlog fit

/-! ## Concrete inputs used by witnesses and counterexamples -/

/-- A placeholder model of `np.log` (its values are irrelevant to every
statement below). -/
def rlog0 : ℚ → ℚ := fun _ => 0

/-- A placeholder model of the converged `curve_fit` result (its values are
irrelevant to every statement below); it returns the source's seed values. -/
def fit0 : List ℚ → List ℚ → ℚ × ℚ := fun _ _ => (1246 * 100000, 19 / 100)

/-- Stress values (in the model where `area = piFloat`, i.e. `diameter = 2`)
of a 20-sample curve on which the whole pipeline succeeds: linear of slope
1000 in strain with a dip at index 5, maximum at index 15, then necking. -/
def goodStressVals : List ℚ :=
  [0, 1, 2, 3, 4, 1, 6, 7, 8, 9, 10, 11, 12, 13, 14, 30, 29, 28, 27, 26]

/-- Force column realising `goodStressVals` exactly: with `diameter = 2` the
cross-section area is `piFloat`, so `stress = force / piFloat`. -/
def goodForce : List ℚ := goodStressVals.map (fun s => s * piFloat)

/-- Displacement column `0, 1, …, 19`; with `length = 1000` the strain is
`i / 1000` at index `i`. -/
def goodDisplacement : List ℚ := (List.range 20).map (fun i => (i : ℚ))

/-- An arbitrary time column of the right length. -/
def goodTime : List ℚ := (List.range 20).map (fun i => (i : ℚ))

/-- The pipeline run on the good curve. -/
def goodPipeline : Except String TensileTestRecord :=
  pipelineFromArrays goodForce goodDisplacement goodTime 1000 2 rlog0 fit0

/-- An all-zero record, used only as the default of `exceptGetD`. -/
def emptyRecord : TensileTestRecord :=
  { force := [], displacement := [], time := [], length := 0, diameter := 0,
    area := 0, strain := [], stress := [], realStrain := [], realStress := [],
    elasticModulus := 0, proportionalityStrain := 0, proportionalityStrength := 0,
    yieldStrain := 0, yieldStrength := 0, ultimateStrain := 0, ultimateStrength := 0,
    yieldWasCorrected := false, elasticStrain := [], elasticStress := [],
    plasticStrain := [], plasticStress := [], neckingStrain := [], neckingStress := [],
    resilienceModulus := 0, toughnessModulus := 0, strengthCoefficient := 0,
    strainHardeningExponent := 0 }

/-- Extract the record of a successful run (default otherwise). -/
def exceptGetD (e : Except String TensileTestRecord) (d : TensileTestRecord) :
    TensileTestRecord :=
  match e with
  | Except.ok r => r
  | Except.error _ => d

/-- The record produced by the pipeline on the good curve. -/
def goodRecord : TensileTestRecord := exceptGetD goodPipeline emptyRecord

/-- Strain column of the 13-sample curve refuting the claimed scan range:
identical to the stress column except for a perturbation at index 0, so the
residual keeps falling as the prefix grows. -/
def c1ceStrain : List ℚ := [0, 1, 2, 3, 4, 5, 6, 7, 8, 9, 10, 11, 12]

/-- Stress column of the scan-range counterexample curve. -/
def c1ceStress : List ℚ := [1, 1, 2, 3, 4, 5, 6, 7, 8, 9, 10, 11, 12]

/-- Strain column of the C3 witness curve. -/
def c3strain : List ℚ := [0, 1 / 1000, 2 / 1000, 3 / 1000]

/-- Stress column of the C3 witness curve (crosses the 0.002-offset line of
slope 1000 first at index 3). -/
def c3stress : List ℚ := [0, 1, 2, 0]

/-- Strain column of the C6 witness curve. -/
def c6strain : List ℚ := [0, 1 / 1000]

/-- Stress column of the C6 witness curve (always above the offset line). -/
def c6stress : List ℚ := [5, 5]

/-- Strain column of the C9 witness curve. -/
def c9strain : List ℚ := [0, 1 / 1000, 2 / 1000, 3 / 1000, 4 / 1000]

/-- Stress column of the C9 witness curve. -/
def c9stress : List ℚ := [0, 1, 2, 1, 0]

/-- Strain column of the C8 witness curve. -/
def c8strain : List ℚ := [0, 1, 2]

/-- Stress column of the C8 witness curve. -/
def c8stress : List ℚ := [1, 2, 3]

/-- A tabular input with no `force` column. -/
def c5df : List (String × List ℚ) := [("displacement", [0]), ("time", [0])]

/-- The good curve's columns with the displacement negated, so that a
negative gauge length produces the same ascending strain sequence. -/
def badGeomDf : List (String × List ℚ) :=
  [("force", goodForce), ("displacement", goodDisplacement.map (fun d => -d)),
   ("time", goodTime)]

/-- The analysed record with its stored time column blanked, for comparing
everything else across runs. -/
def stripTime (r : TensileTestRecord) : TensileTestRecord := { r with time := [] }

/-! ## Helper lemmas -/

/-- With at most 10 samples the list of scanned prefix lengths
`np.arange(10, len(stress))` is empty, so the loop body never runs. -/
theorem propScan_of_short (strain stress : List ℚ) (h : stress.length ≤ 10) :
    propScan strain stress = none := by
  unfold propScan
  rw [Nat.sub_eq_zero_of_le h]
  rfl

/-- When no sample lies strictly below the offset elastic line,
`np.argwhere` finds nothing and the flatten-index raises: the crossing
search yields `none`. -/
theorem firstCrossIdx_eq_none (E n : ℚ) (strain stress : List ℚ)
    (h : ∀ i, i < strain.length → i < stress.length →
      0 ≤ stress.getD i 0 - E * (strain.getD i 0 - n)) :
    firstCrossIdx E n strain stress = none := by
  induction strain generalizing stress with
  | nil => cases stress <;> rfl
  | cons s ss ih =>
    cases stress with
    | nil => rfl
    | cons t ts =>
      have h0 : ¬(t - E * (s - n) < 0) := not_lt.mpr (by simpa using h 0 (by simp) (by simp))
      rw [firstCrossIdx, if_neg h0,
        ih ts (fun i hi1 hi2 => by simpa using h (i + 1) (by simpa) (by simpa))]
      rfl

/-- The crossing search returns exactly the first index at which the curve
lies strictly below the offset elastic line. -/
theorem firstCrossIdx_eq_some (E n : ℚ) (strain stress : List ℚ) (i : ℕ)
    (hi1 : i < strain.length) (hi2 : i < stress.length)
    (hcross : stress.getD i 0 - E * (strain.getD i 0 - n) < 0)
    (hbefore : ∀ j, j < i → 0 ≤ stress.getD j 0 - E * (strain.getD j 0 - n)) :
    firstCrossIdx E n strain stress = some i := by
  induction strain generalizing stress i with
  | nil => exact absurd hi1 (by simp)
  | cons s ss ih =>
    cases stress with
    | nil => exact absurd hi2 (by simp)
    | cons t ts =>
      cases i with
      | zero =>
        rw [firstCrossIdx, if_pos (by simpa using hcross)]
      | succ j =>
        have h0 : ¬(t - E * (s - n) < 0) := not_lt.mpr (by simpa using hbefore 0 (Nat.succ_pos j))
        rw [firstCrossIdx, if_neg h0,
          ih ts j (by simpa using hi1) (by simpa using hi2) (by simpa using hcross)
            (fun k hk => by simpa using hbefore (k + 1) (Nat.succ_lt_succ hk))]
        rfl

/-- A found crossing index is in bounds on both sequences. -/
theorem firstCrossIdx_lt_length (E n : ℚ) (strain stress : List ℚ) (i : ℕ)
    (h : firstCrossIdx E n strain stress = some i) :
    i < strain.length ∧ i < stress.length := by
  induction strain generalizing stress i with
  | nil => cases stress <;> simp [firstCrossIdx] at h
  | cons s ss ih =>
    cases stress with
    | nil => simp [firstCrossIdx] at h
    | cons t ts =>
      rw [firstCrossIdx] at h
      by_cases h0 : t - E * (s - n) < 0
      · rw [if_pos h0] at h
        cases h
        exact ⟨by simp, by simp⟩
      · rw [if_neg h0] at h
        cases hrec : firstCrossIdx E n ss ts with
        | none => rw [hrec] at h; cases h
        | some j =>
          rw [hrec] at h
          cases h
          have := ih ts j hrec
          exact ⟨by simpa using Nat.succ_lt_succ this.1, by simpa using Nat.succ_lt_succ this.2⟩

/-- Raising the offset (with a nonnegative slope) can only move the first
crossing index later: the set of below-line samples shrinks pointwise. -/
theorem firstCrossIdx_mono (E : ℚ) (hE : 0 ≤ E) (n1 n2 : ℚ) (h12 : n1 ≤ n2)
    (strain stress : List ℚ) (i1 i2 : ℕ)
    (h1 : firstCrossIdx E n1 strain stress = some i1)
    (h2 : firstCrossIdx E n2 strain stress = some i2) :
    i1 ≤ i2 := by
  induction strain generalizing stress i1 i2 with
  | nil => cases stress <;> simp [firstCrossIdx] at h1
  | cons s ss ih =>
    cases stress with
    | nil => simp [firstCrossIdx] at h1
    | cons t ts =>
      rw [firstCrossIdx] at h1 h2
      by_cases c1 : t - E * (s - n1) < 0
      · rw [if_pos c1] at h1
        cases h1
        exact Nat.zero_le _
      · have c2 : ¬(t - E * (s - n2) < 0) := by
          intro hc
          exact c1 (lt_of_le_of_lt (by nlinarith) hc)
        rw [if_neg c1] at h1
        rw [if_neg c2] at h2
        cases hr1 : firstCrossIdx E n1 ss ts with
        | none => rw [hr1] at h1; cases h1
        | some j1 =>
          cases hr2 : firstCrossIdx E n2 ss ts with
          | none => rw [hr2] at h2; cases h2
          | some j2 =>
            rw [hr1] at h1
            rw [hr2] at h2
            cases h1
            cases h2
            exact Nat.succ_le_succ (ih ts j1 j2 hr1 hr2)

/-- In a `≤`-sorted list, entries at earlier positions are not larger. -/
theorem getD_mono_of_pairwise (l : List ℚ) (hl : l.Pairwise (· ≤ ·))
    (i j : ℕ) (hij : i ≤ j) (hj : j < l.length) : l.getD i 0 ≤ l.getD j 0 := by
  rcases Nat.lt_or_ge i j with hlt | hge
  · have hi : i < l.length := lt_trans hlt hj
    rw [l.getD_eq_getElem 0 hi, l.getD_eq_getElem 0 hj]
    exact List.pairwise_iff_getElem.mp hl i j hi hj hlt
  · have : i = j := le_antisymm hij hge
    subst this
    exact le_refl _

/-- Zipping the two projections of a pair list rebuilds it. -/
theorem zip_map_fst_snd_eq (l : List (ℚ × ℚ)) :
    List.zip (l.map Prod.fst) (l.map Prod.snd) = l := by
  induction l with
  | nil => rfl
  | cons a t ih => simpa [List.zip_cons_cons] using ih

/-- A sorted strain column makes the zipped curve sorted in the first
coordinate. -/
theorem pairwise_zip_left (strain stress : List ℚ) (h : strain.Pairwise (· ≤ ·)) :
    (List.zip strain stress).Pairwise (fun p q : ℚ × ℚ => p.1 ≤ q.1) := by
  induction strain generalizing stress with
  | nil => simp
  | cons s ss ih =>
    cases stress with
    | nil => simp
    | cons t ts =>
      rcases List.pairwise_cons.mp h with ⟨hhead, htail⟩
      rw [List.zip_cons_cons]
      refine List.pairwise_cons.mpr ⟨?_, ih ts htail⟩
      intro q hq
      obtain ⟨q1, q2⟩ := q
      exact hhead q1 (List.of_mem_zip hq).1

/-- The trapezoidal rule is nonnegative on a curve with nondecreasing
abscissae and nonnegative ordinates. -/
theorem trapz_nonneg (l : List (ℚ × ℚ)) (hs : l.Pairwise (fun p q => p.1 ≤ q.1))
    (hy : ∀ p ∈ l, 0 ≤ p.2) : 0 ≤ trapz l := by
  induction l with
  | nil => simp [trapz]
  | cons a t ih =>
    cases t with
    | nil => simp [trapz]
    | cons b t' =>
      rcases List.pairwise_cons.mp hs with ⟨hhead, htail⟩
      have hab : a.1 ≤ b.1 := hhead b (by simp)
      have h0 : 0 ≤ (b.1 - a.1) * (a.2 + b.2) / 2 := by
        have ha2 := hy a (by simp)
        have hb2 := hy b (by simp)
        have : (0 : ℚ) ≤ a.2 + b.2 := by linarith
        exact div_nonneg (mul_nonneg (by linarith) this) (by norm_num)
      have ht : 0 ≤ trapz (b :: t') := ih htail (fun p hp => hy p (by simp [hp]))
      simp only [trapz]
      linarith

/-- Truncating a curve at a failing predicate cannot increase its
trapezoidal integral, when abscissae are sorted and ordinates nonnegative. -/
theorem trapz_takeWhile_le (p : ℚ × ℚ → Bool) (l : List (ℚ × ℚ))
    (hs : l.Pairwise (fun a b => a.1 ≤ b.1)) (hy : ∀ q ∈ l, 0 ≤ q.2) :
    trapz (l.takeWhile p) ≤ trapz l := by
  induction l with
  | nil => simp
  | cons a t ih =>
    rcases List.pairwise_cons.mp hs with ⟨hhead, htail⟩
    by_cases hpa : p a
    · rw [List.takeWhile_cons_of_pos hpa]
      cases t with
      | nil => simp [List.takeWhile]
      | cons b t' =>
        by_cases hpb : p b
        · have hrec := ih htail (fun q hq => hy q (by simp [hq]))
          rw [List.takeWhile_cons_of_pos hpb] at hrec
          rw [List.takeWhile_cons_of_pos hpb]
          simp only [trapz]
          linarith
        · rw [List.takeWhile_cons_of_neg hpb]
          have := trapz_nonneg (a :: b :: t') hs hy
          simpa [trapz] using this
    · rw [List.takeWhile_cons_of_neg hpa]
      have := trapz_nonneg (a :: t) hs hy
      simpa [trapz] using this

/-- On a curve sorted by strain, the strict-below-`y` mask keeps exactly an
initial segment: filtering equals truncation. -/
theorem filter_lt_eq_takeWhile (y : ℚ) (l : List (ℚ × ℚ))
    (hs : l.Pairwise (fun p q => p.1 ≤ q.1)) :
    l.filter (fun q => q.1 < y) = l.takeWhile (fun q => q.1 < y) := by
  induction l with
  | nil => rfl
  | cons a t ih =>
    rcases List.pairwise_cons.mp hs with ⟨hhead, htail⟩
    by_cases hay : a.1 < y
    · rw [List.filter_cons_of_pos (by simpa using hay),
        List.takeWhile_cons_of_pos (by simpa using hay), ih htail]
    · rw [List.filter_cons_of_neg (by simpa using hay),
        List.takeWhile_cons_of_neg (by simpa using hay)]
      refine List.filter_eq_nil_iff.mpr ?_
      intro b hb
      simpa using not_lt.mpr (le_trans (le_of_not_lt hay) (hhead b hb))

/-- Invariant of the proportionality-limit loop: starting from a stored
minimum at index `w`, the loop returns the first strict minimiser of `f`
among `w` and the remaining candidates (processed in increasing order). -/
theorem selLoop_go (f g : ℕ → ℚ) (l : List ℕ) (w : ℕ)
    (hsorted : l.Pairwise (· < ·)) (hlt : ∀ x ∈ l, w < x) :
    ∃ w', selLoop f g l (some (f w, g w, w)) = some (f w', g w', w') ∧
      (w' = w ∨ w' ∈ l) ∧ f w' ≤ f w ∧ (∀ x ∈ l, f w' ≤ f x) ∧
      (w < w' → f w' < f w) ∧ (∀ x ∈ l, x < w' → f w' < f x) := by
  induction l generalizing w with
  | nil =>
    exact ⟨w, rfl, Or.inl rfl, le_refl _, by simp, fun h => absurd h (lt_irrefl w), by simp⟩
  | cons L rest ih =>
    rcases List.pairwise_cons.mp hsorted with ⟨hLrest, hrest⟩
    have hwL : w < L := hlt L (by simp)
    by_cases hc : f L < f w
    · have hstep : selStep f g (some (f w, g w, w)) L = some (f L, g L, L) := by
        simp [selStep, hc]
      obtain ⟨w', hw', hmem, hle, hall, hstrict, hbefore⟩ := ih L hrest hLrest
      refine ⟨w', by rw [selLoop, hstep]; exact hw', ?_, ?_, ?_, ?_, ?_⟩
      · rcases hmem with h | h
        · exact Or.inr (by simp [h])
        · exact Or.inr (by simp [h])
      · exact le_of_lt (lt_of_le_of_lt hle hc)
      · intro x hx
        rcases List.mem_cons.mp hx with h | h
        · rw [h]; exact hle
        · exact hall x h
      · intro _
        exact lt_of_le_of_lt hle hc
      · intro x hx hxw
        rcases List.mem_cons.mp hx with h | h
        · subst h
          exact hstrict hxw
        · exact hbefore x h hxw
    · have hstep : selStep f g (some (f w, g w, w)) L = some (f w, g w, w) := by
        simp [selStep, hc]
      obtain ⟨w', hw', hmem, hle, hall, hstrict, hbefore⟩ :=
        ih w hrest (fun x hx => hlt x (by simp [hx]))
      have hwle : f w ≤ f L := not_lt.mp hc
      refine ⟨w', by rw [selLoop, hstep]; exact hw', ?_, hle, ?_, hstrict, ?_⟩
      · rcases hmem with h | h
        · exact Or.inl h
        · exact Or.inr (by simp [h])
      · intro x hx
        rcases List.mem_cons.mp hx with h | h
        · rw [h]; exact le_trans hle hwle
        · exact hall x h
      · intro x hx hxw
        rcases List.mem_cons.mp hx with h | h
        · subst h
          have hww' : w < w' := lt_trans hwL hxw
          exact lt_of_lt_of_le (hstrict hww') hwle
        · exact hbefore x h hxw

/-- The scan over `np.arange(10, N)` (with `N ≥ 11`, so the loop runs)
returns the first strict minimiser `w` of the squared residual over
`10 ≤ L < N`, paired with its residual and fitted slope. -/
theorem propScan_spec (strain stress : List ℚ) (hN : 11 ≤ stress.length) :
    ∃ w, propScan strain stress =
        some (cov00At strain stress w, slopeAt strain stress w, w) ∧
      10 ≤ w ∧ w < stress.length ∧
      (∀ L, 10 ≤ L → L < stress.length →
        cov00At strain stress w ≤ cov00At strain stress L) ∧
      (∀ L, 10 ≤ L → L < w →
        cov00At strain stress w < cov00At strain stress L) := by
  have hsplit : stress.length - 10 = (stress.length - 11) + 1 := by omega
  have hrange : List.range' 10 (stress.length - 10) =
      10 :: List.range' 11 (stress.length - 11) := by
    rw [hsplit, List.range'_succ]
  have hmem : ∀ x ∈ List.range' 11 (stress.length - 11), 10 < x := by
    intro x hx
    have := (List.mem_range'_1.mp hx).1
    omega
  obtain ⟨w, hw', hmemw, hle, hall, hstrict, hbefore⟩ :=
    selLoop_go (cov00At strain stress) (slopeAt strain stress)
      (List.range' 11 (stress.length - 11)) 10 (List.pairwise_lt_range' 11 _) hmem
  have hscan : propScan strain stress =
      some (cov00At strain stress w, slopeAt strain stress w, w) := by
    unfold propScan
    rw [hrange]
    exact hw'
  have hwbound : 10 ≤ w ∧ w < stress.length := by
    rcases hmemw with h | h
    · omega
    · have := List.mem_range'_1.mp h
      omega
  refine ⟨w, hscan, hwbound.1, hwbound.2, ?_, ?_⟩
  · intro L hL1 hL2
    rcases Nat.eq_or_lt_of_le hL1 with h | h
    · rw [← h]; exact hle
    · exact hall L (List.mem_range'_1.mpr ⟨h, by omega⟩)
  · intro L hL1 hL2
    rcases Nat.eq_or_lt_of_le hL1 with h | h
    · rw [← h]
      have h10w : 10 < w := by omega
      exact hstrict h10w
    · exact hbefore L (List.mem_range'_1.mpr ⟨h, by omega⟩) hL2

/-- Cauchy–Schwarz for lists: `(Σx)² ≤ L · Σx²`. -/
theorem list_sq_sum_le (l : List ℚ) : l.sum ^ 2 ≤ (l.length : ℚ) * sumSq l := by
  induction l with
  | nil => simp [sumSq]
  | cons a t ih =>
    rcases t with _ | ⟨b, t'⟩
    · simp [sumSq]
    · have hn1 : (1 : ℚ) ≤ ((b :: t').length : ℚ) := by
        have : 1 ≤ (b :: t').length := by simp
        exact_mod_cast this
      have hQ : 0 ≤ sumSq (b :: t') := by
        refine List.sum_nonneg ?_
        intro x hx
        obtain ⟨y, hy, rfl⟩ := List.mem_map.mp hx
        positivity
      have hsum : (a :: b :: t').sum = a + (b :: t').sum := List.sum_cons
      have hsq : sumSq (a :: b :: t') = a ^ 2 + sumSq (b :: t') := by
        simp [sumSq]
      have hlen : ((a :: b :: t').length : ℚ) = ((b :: t').length : ℚ) + 1 := by
        push_cast [List.length_cons]
        ring
      rw [hsum, hsq, hlen]
      nlinarith [ih, sq_nonneg (((b :: t').length : ℚ) * a - (b :: t').sum), hn1, hQ]

/-- A sum of squared residual terms is nonnegative, for any line. -/
theorem zipWith_sq_sum_nonneg (A B : ℚ) (xs ys : List ℚ) :
    0 ≤ (List.zipWith (fun x y => (y - (A * x + B)) ^ 2) xs ys).sum := by
  induction xs generalizing ys with
  | nil => simp
  | cons x xs ih =>
    cases ys with
    | nil => simp
    | cons y ys =>
      rw [List.zipWith_cons_cons, List.sum_cons]
      have h1 := ih ys
      positivity

/-- The residual sum of squares of a fit is nonnegative. -/
theorem fitRSS_nonneg (xs ys : List ℚ) : 0 ≤ fitRSS xs ys := by
  unfold fitRSS
  exact zipWith_sq_sum_nonneg (fitSlope xs ys) (fitIntercept xs ys) xs ys

/-- The normal-matrix determinant `L*Σx² - (Σx)²` is nonnegative. -/
theorem fitDet_nonneg (xs : List ℚ) : 0 ≤ fitDet xs := by
  have := list_sq_sum_le xs
  unfold fitDet
  linarith

/-- With at least four points, numpy's covariance entry is nonnegative
(so its square root, the Python residual, is well defined). -/
theorem fitCov00_nonneg (xs ys : List ℚ) (h4 : 4 ≤ xs.length) :
    0 ≤ fitCov00 xs ys := by
  unfold fitCov00
  apply div_nonneg
  · exact mul_nonneg (Nat.cast_nonneg _) (fitRSS_nonneg xs ys)
  · refine mul_nonneg (fitDet_nonneg xs) ?_
    have : (4 : ℚ) ≤ (xs.length : ℚ) := by exact_mod_cast h4
    linarith

/-- The squared residual of a scanned prefix is nonnegative. -/
theorem cov00At_nonneg (strain stress : List ℚ) (L : ℕ) (h4 : 4 ≤ L)
    (hL : L ≤ strain.length) : 0 ≤ cov00At strain stress L := by
  apply fitCov00_nonneg
  rw [List.length_take]
  omega

/-- Inversion of a successful `Except` bind. -/
theorem except_bind_ok {α β : Type} {e : Except String α} {f : α → Except String β}
    {r : β} (h : (e >>= f) = Except.ok r) :
    ∃ a, e = Except.ok a ∧ f a = Except.ok r := by
  cases e with
  | error msg => simp [Bind.bind, Except.bind] at h
  | ok a => exact ⟨a, rfl, by simpa [Bind.bind, Except.bind] using h⟩

/-- Inversion of a successful `toExcept`. -/
theorem toExcept_ok {α : Type} {msg : String} {o : Option α} {a : α}
    (h : toExcept msg o = Except.ok a) : o = some a := by
  cases o with
  | none => simp [toExcept] at h
  | some b => simpa [toExcept] using h

/-- A successful Hollomon fit needs at least two plastic samples
(`curve_fit` raises a `TypeError` otherwise). -/
theorem defineHardening_ok {fit : List ℚ → List ℚ → ℚ × ℚ} {rlog : ℚ → ℚ}
    {ps pt : List ℚ} {K : ℚ × ℚ}
    (h : defineHardening fit rlog ps pt = Except.ok K) : 2 ≤ ps.length := by
  unfold defineHardening at h
  by_cases hlt : (engineering2real rlog ps pt).1.length < 2
  · rw [if_pos hlt] at h
    cases h
  · have hlen : (engineering2real rlog ps pt).1.length = ps.length := by
      simp [engineering2real]
    omega

/-- Membership in the plastic strain sub-curve forces the open-interval
bounds of its mask. -/
theorem plasticRegion_mem {strain stress : List ℚ} {y u s : ℚ}
    (hs : s ∈ (plasticRegion strain stress y u).1) : y < s ∧ s < u := by
  unfold plasticRegion maskPairs at hs
  obtain ⟨p, hp, rfl⟩ := List.mem_map.mp hs
  have hmem := List.mem_filter.mp hp
  simpa [Bool.and_eq_true, decide_eq_true_eq] using hmem.2

/-- The first-argmax index is in bounds. -/
theorem argmaxIdxVal_lt_length (l : List ℚ) (j : ℕ) (m : ℚ)
    (h : argmaxIdxVal l = some (j, m)) : j < l.length := by
  induction l generalizing j m with
  | nil => simp [argmaxIdxVal] at h
  | cons a t ih =>
    rw [argmaxIdxVal] at h
    split at h
    · cases h
      simp
    · rename_i x j' m' heq
      split at h
      · cases h
        exact Nat.succ_lt_succ (ih _ _ (by assumption))
      · cases h
        simp

/-- Inversion of the ultimate-point stage: the result is the curve samples
at the first stress argmax. -/
theorem defineUltimateStrength_ok {strain stress : List ℚ} {p : ℚ × ℚ}
    (h : defineUltimateStrength strain stress = some p) :
    ∃ j m, argmaxIdxVal stress = some (j, m) ∧
      p = (strain.getD j 0, stress.getD j 0) := by
  unfold defineUltimateStrength at h
  cases hr : argmaxIdxVal stress with
  | none => rw [hr] at h; cases h
  | some q =>
    obtain ⟨j, m⟩ := q
    rw [hr, Option.map_some'] at h
    cases h
    exact ⟨j, m, rfl, rfl⟩

/-- Inversion of a successful pipeline run: every fallible stage succeeded
and the record is the assembly of the stage results. -/
theorem pipeline_ok_inversion {force displacement time : List ℚ}
    {length diameter : ℚ} {rlog : ℚ → ℚ} {fit : List ℚ → List ℚ → ℚ × ℚ}
    {r : TensileTestRecord}
    (hok : pipelineFromArrays force displacement time length diameter rlog fit =
      Except.ok r) :
    ∃ scanned yield0 ultimate K,
      defineElasticModulusAndProportionalityLimit
        (displacement.map (fun d => d / length))
        (force.map (fun f => f / (piFloat * diameter ^ 2 / 4))) = some scanned ∧
      defineYieldStrength scanned.1 (displacement.map (fun d => d / length))
        (force.map (fun f => f / (piFloat * diameter ^ 2 / 4))) = some yield0 ∧
      defineUltimateStrength (displacement.map (fun d => d / length))
        (force.map (fun f => f / (piFloat * diameter ^ 2 / 4))) = some ultimate ∧
      defineHardening fit rlog
        (plasticRegion (displacement.map (fun d => d / length))
          (force.map (fun f => f / (piFloat * diameter ^ 2 / 4)))
          (correctYieldStrength yield0 (scanned.2.1, scanned.2.2) ultimate.1).1.1
          ultimate.1).1
        (plasticRegion (displacement.map (fun d => d / length))
          (force.map (fun f => f / (piFloat * diameter ^ 2 / 4)))
          (correctYieldStrength yield0 (scanned.2.1, scanned.2.2) ultimate.1).1.1
          ultimate.1).2 = Except.ok K ∧
      r = assembleRecord force displacement time length diameter
        (piFloat * diameter ^ 2 / 4) (displacement.map (fun d => d / length))
        (force.map (fun f => f / (piFloat * diameter ^ 2 / 4))) rlog scanned
        (correctYieldStrength yield0 (scanned.2.1, scanned.2.2) ultimate.1)
        ultimate K := by
  unfold pipelineFromArrays at hok
  obtain ⟨scanned, h1, hok⟩ := except_bind_ok hok
  obtain ⟨yield0, h2, hok⟩ := except_bind_ok hok
  obtain ⟨ultimate, h3, hok⟩ := except_bind_ok hok
  obtain ⟨K, h4, hok⟩ := except_bind_ok hok
  refine ⟨scanned, yield0, ultimate, K, toExcept_ok h1, toExcept_ok h2,
    toExcept_ok h3, h4, ?_⟩
  injection hok with h
  exact h.symm

/-- Order trichotomy behind the region partition: with `y < u` and a strain
value distinct from both boundaries, exactly one region predicate holds. -/
theorem region_exactly_one_of_lt (y u s : ℚ) (hyu : y < u) (hsy : s ≠ y)
    (hsu : s ≠ u) :
    (s < y ∧ ¬(y < s ∧ s < u) ∧ ¬u < s) ∨
    (¬s < y ∧ (y < s ∧ s < u) ∧ ¬u < s) ∨
    (¬s < y ∧ ¬(y < s ∧ s < u) ∧ u < s) := by
  rcases lt_trichotomy s y with h | h | h
  · exact Or.inl ⟨h, fun h2 => absurd h2.1 (by linarith), by linarith⟩
  · exact absurd h hsy
  · rcases lt_trichotomy s u with h2 | h2 | h2
    · exact Or.inr (Or.inl ⟨by linarith, ⟨h, h2⟩, by linarith⟩)
    · exact absurd h2 hsu
    · exact Or.inr (Or.inr ⟨by linarith, fun h3 => absurd h3.2 (by linarith), h2⟩)

/-- In every successfully analysed record the corrected yield strain lies
strictly below the ultimate strain: the Hollomon stage needs at least two
plastic samples, and any plastic sample lies strictly between the two. -/
theorem yield_lt_ultimate_of_ok {force displacement time : List ℚ}
    {length diameter : ℚ} {rlog : ℚ → ℚ} {fit : List ℚ → List ℚ → ℚ × ℚ}
    {r : TensileTestRecord}
    (hok : pipelineFromArrays force displacement time length diameter rlog fit =
      Except.ok r) : r.yieldStrain < r.ultimateStrain := by
  obtain ⟨scanned, yield0, ultimate, K, hscan, hyld, hult, hhard, hrec⟩ :=
    pipeline_ok_inversion hok
  subst hrec
  have h2 := defineHardening_ok hhard
  obtain ⟨s, hs⟩ := List.exists_mem_of_ne_nil _
    (List.length_pos.mp (lt_of_lt_of_le (by norm_num) h2))
  have hb := plasticRegion_mem hs
  simpa [assembleRecord] using lt_trans hb.1 hb.2

/-! ## Claims -/

/-- C1 (amended): the estimator scans every prefix length `L` from 10 up to
`N - 1` inclusive (`np.arange(10, N)` excludes `N`), fits a degree-1
ordinary-least-squares line to `(strain[0:L], stress[0:L])`, takes as
residual the square root of the `(0,0)` covariance entry of the fit, and
selects the first `L` attaining the minimum residual (strict `<` comparison
in increasing-`L` order); it sets `elasticModulus` to the slope of the
winning fit and the proportionality point to the curve samples at the
winning index.  The original range "up to `N` inclusive" is refuted by
`c1_scan_range_counterexample`. -/
theorem c1_scan_first_min_amended (strain stress : List ℚ)
    (hlen : strain.length = stress.length) (hN : 11 ≤ stress.length) :
    ∃ w, 10 ≤ w ∧ w < stress.length ∧
      defineElasticModulusAndProportionalityLimit strain stress =
        some (slopeAt strain stress w, strain.getD w 0, stress.getD w 0) ∧
      (∀ L, 10 ≤ L → L < stress.length →
        Real.sqrt ((cov00At strain stress w : ℚ) : ℝ) ≤
          Real.sqrt ((cov00At strain stress L : ℚ) : ℝ)) ∧
      (∀ L, 10 ≤ L → L < w →
        Real.sqrt ((cov00At strain stress w : ℚ) : ℝ) <
          Real.sqrt ((cov00At strain stress L : ℚ) : ℝ)) := by
  obtain ⟨w, hscan, h10, hwN, hall, hbefore⟩ := propScan_spec strain stress hN
  refine ⟨w, h10, hwN, ?_, ?_, ?_⟩
  · unfold defineElasticModulusAndProportionalityLimit
    rw [hscan]
    rfl
  · intro L hL1 hL2
    apply Real.sqrt_le_sqrt
    exact_mod_cast hall L hL1 hL2
  · intro L hL1 hL2
    apply Real.sqrt_lt_sqrt
    · have h0 : (0 : ℚ) ≤ cov00At strain stress w :=
        cov00At_nonneg strain stress w (by omega) (by omega)
      exact_mod_cast h0
    · exact_mod_cast hbefore L hL1 hL2

/-- Witness for the amended C1 at the concrete 13-sample curve. -/
theorem c1_scan_first_min_amended_witness :
    (c1ceStrain.length = c1ceStress.length ∧ 11 ≤ c1ceStress.length) ∧
    (∃ w, 10 ≤ w ∧ w < c1ceStress.length ∧
      defineElasticModulusAndProportionalityLimit c1ceStrain c1ceStress =
        some (slopeAt c1ceStrain c1ceStress w,
          c1ceStrain.getD w 0, c1ceStress.getD w 0) ∧
      (∀ L, 10 ≤ L → L < c1ceStress.length →
        Real.sqrt ((cov00At c1ceStrain c1ceStress w : ℚ) : ℝ) ≤
          Real.sqrt ((cov00At c1ceStrain c1ceStress L : ℚ) : ℝ)) ∧
      (∀ L, 10 ≤ L → L < w →
        Real.sqrt ((cov00At c1ceStrain c1ceStress w : ℚ) : ℝ) <
          Real.sqrt ((cov00At c1ceStrain c1ceStress L : ℚ) : ℝ))) :=
  ⟨⟨by decide, by decide⟩,
   c1_scan_first_min_amended c1ceStrain c1ceStress (by decide) (by decide)⟩

/-- C1 counterexample: on this 13-sample curve the code's scan
(`np.arange(10, N)`) selects `L = 12 = N - 1`, yet the residual of the
prefix of length `N = 13` is strictly smaller than the selected one.  A scan
of "every prefix length from 10 up to N inclusive" selecting the first
minimum would therefore select 13, not 12: the claimed range is false of
the code. -/
theorem c1_scan_range_counterexample :
    c1ceStress.length = 13 ∧
    propScan c1ceStrain c1ceStress =
      some (cov00At c1ceStrain c1ceStress 12, slopeAt c1ceStrain c1ceStress 12, 12) ∧
    Real.sqrt ((cov00At c1ceStrain c1ceStress 13 : ℚ) : ℝ) <
      Real.sqrt ((cov00At c1ceStrain c1ceStress 12 : ℚ) : ℝ) := by
  refine ⟨by decide, by decide, ?_⟩
  apply Real.sqrt_lt_sqrt
  · have h0 : (0 : ℚ) ≤ cov00At c1ceStrain c1ceStress 13 := by decide
    exact_mod_cast h0
  · have h1 : cov00At c1ceStrain c1ceStress 13 < cov00At c1ceStrain c1ceStress 12 := by
      decide
    exact_mod_cast h1

/-- C2 (amended): after the yield-correction stage, every successfully
analysed test with equal-length columns satisfies
`yieldStrain ≤ ultimateStrain`, and when its strain sequence is ascending
also `ultimateStrain ≤ strain[N-1]`.  The first link of the original chain,
`proportionalityStrain ≤ yieldStrain`, fails on the code: see
`c2_keypoint_order_counterexample`. -/
theorem c2_keypoint_order_amended (force displacement time : List ℚ)
    (length diameter : ℚ) (rlog : ℚ → ℚ) (fit : List ℚ → List ℚ → ℚ × ℚ)
    (r : TensileTestRecord)
    (hok : pipelineFromArrays force displacement time length diameter rlog fit =
      Except.ok r)
    (hcols : displacement.length = force.length) :
    r.yieldStrain ≤ r.ultimateStrain ∧
    (r.strain.Pairwise (· ≤ ·) →
      r.ultimateStrain ≤ r.strain.getD (r.strain.length - 1) 0) := by
  refine ⟨le_of_lt (yield_lt_ultimate_of_ok hok), ?_⟩
  intro hsorted
  obtain ⟨scanned, yield0, ultimate, K, hscan, hyld, hult, hhard, hrec⟩ :=
    pipeline_ok_inversion hok
  obtain ⟨j, m, hargmax, hup⟩ := defineUltimateStrength_ok hult
  have hjst : j < (force.map (fun f => f / (piFloat * diameter ^ 2 / 4))).length :=
    argmaxIdxVal_lt_length _ j m hargmax
  have hjlt : j < (displacement.map (fun d => d / length)).length := by
    rw [List.length_map] at hjst ⊢
    omega
  have hstrain : r.strain = displacement.map (fun d => d / length) := by
    rw [hrec]
    simp [assembleRecord]
  have hustr : r.ultimateStrain =
      (displacement.map (fun d => d / length)).getD j 0 := by
    rw [hrec]
    simp only [assembleRecord]
    rw [hup]
  rw [hustr, hstrain]
  rw [hstrain] at hsorted
  exact getD_mono_of_pairwise _ hsorted j _ (by omega) (by omega)

/-- Witness for the amended C2 at the concrete successfully analysed
20-sample curve. -/
theorem c2_keypoint_order_amended_witness :
    (pipelineFromArrays goodForce goodDisplacement goodTime 1000 2 rlog0 fit0 =
        Except.ok goodRecord ∧
      goodDisplacement.length = goodForce.length) ∧
    (goodRecord.yieldStrain ≤ goodRecord.ultimateStrain ∧
      (goodRecord.strain.Pairwise (· ≤ ·) →
        goodRecord.ultimateStrain ≤
          goodRecord.strain.getD (goodRecord.strain.length - 1) 0)) :=
  ⟨⟨rfl, by decide⟩,
   c2_keypoint_order_amended goodForce goodDisplacement goodTime 1000 2 rlog0 fit0
     goodRecord rfl (by decide)⟩

/-- C2 counterexample: a successfully analysed test (ascending strain,
positive geometry, all stages succeed) whose proportionality strain is
strictly greater than its yield strain — the claimed chain
`Proportionality.strain ≤ Yield.strain ≤ …` fails at its first link. -/
theorem c2_keypoint_order_counterexample :
    ∃ r, pipelineFromArrays goodForce goodDisplacement goodTime 1000 2 rlog0 fit0 =
        Except.ok r ∧
      ¬(r.proportionalityStrain ≤ r.yieldStrain) :=
  ⟨goodRecord, rfl, by decide⟩

/-- C4: in every successfully analysed record, a sample whose strain equals
neither `yieldStrain` nor `ultimateStrain` satisfies exactly one of the
three region predicates used by the segmentation masks
(`strain < yieldStrain`, `yieldStrain < strain < ultimateStrain`,
`ultimateStrain < strain`); boundary samples satisfy none of the
corresponding open comparisons. -/
theorem c4_region_partition (force displacement time : List ℚ)
    (length diameter : ℚ) (rlog : ℚ → ℚ) (fit : List ℚ → List ℚ → ℚ × ℚ)
    (r : TensileTestRecord)
    (hok : pipelineFromArrays force displacement time length diameter rlog fit =
      Except.ok r)
    (i : ℕ) (hi : i < r.strain.length)
    (hsy : r.strain.getD i 0 ≠ r.yieldStrain)
    (hsu : r.strain.getD i 0 ≠ r.ultimateStrain) :
    (r.strain.getD i 0 < r.yieldStrain ∧
      ¬(r.yieldStrain < r.strain.getD i 0 ∧ r.strain.getD i 0 < r.ultimateStrain) ∧
      ¬r.ultimateStrain < r.strain.getD i 0) ∨
    (¬r.strain.getD i 0 < r.yieldStrain ∧
      (r.yieldStrain < r.strain.getD i 0 ∧ r.strain.getD i 0 < r.ultimateStrain) ∧
      ¬r.ultimateStrain < r.strain.getD i 0) ∨
    (¬r.strain.getD i 0 < r.yieldStrain ∧
      ¬(r.yieldStrain < r.strain.getD i 0 ∧ r.strain.getD i 0 < r.ultimateStrain) ∧
      r.ultimateStrain < r.strain.getD i 0) :=
  region_exactly_one_of_lt r.yieldStrain r.ultimateStrain (r.strain.getD i 0)
    (yield_lt_ultimate_of_ok hok) hsy hsu

/-- Witness for C4 at the concrete successfully analysed curve, at index 7
(in the interior of the plastic region). -/
theorem c4_region_partition_witness :
    (pipelineFromArrays goodForce goodDisplacement goodTime 1000 2 rlog0 fit0 =
        Except.ok goodRecord ∧
      7 < goodRecord.strain.length ∧
      goodRecord.strain.getD 7 0 ≠ goodRecord.yieldStrain ∧
      goodRecord.strain.getD 7 0 ≠ goodRecord.ultimateStrain) ∧
    ((goodRecord.strain.getD 7 0 < goodRecord.yieldStrain ∧
      ¬(goodRecord.yieldStrain < goodRecord.strain.getD 7 0 ∧
        goodRecord.strain.getD 7 0 < goodRecord.ultimateStrain) ∧
      ¬goodRecord.ultimateStrain < goodRecord.strain.getD 7 0) ∨
    (¬goodRecord.strain.getD 7 0 < goodRecord.yieldStrain ∧
      (goodRecord.yieldStrain < goodRecord.strain.getD 7 0 ∧
        goodRecord.strain.getD 7 0 < goodRecord.ultimateStrain) ∧
      ¬goodRecord.ultimateStrain < goodRecord.strain.getD 7 0) ∨
    (¬goodRecord.strain.getD 7 0 < goodRecord.yieldStrain ∧
      ¬(goodRecord.yieldStrain < goodRecord.strain.getD 7 0 ∧
        goodRecord.strain.getD 7 0 < goodRecord.ultimateStrain) ∧
      goodRecord.ultimateStrain < goodRecord.strain.getD 7 0)) :=
  ⟨⟨rfl, by decide, by decide, by decide⟩,
   c4_region_partition goodForce goodDisplacement goodTime 1000 2 rlog0 fit0
     goodRecord rfl 7 (by decide) (by decide) (by decide)⟩

/-- C3: `offsetYieldPoint(n)` returns the curve samples `(strain[i], stress[i])`
at the first index `i` (in ascending order) with
`stress[i] - elasticModulus*(strain[i] - n) < 0`, and the stored default
yield point is `offsetYieldPoint` at the offset `n = 0.002`. -/
theorem c3_offset_yield_is_first_crossing (E n : ℚ) (strain stress : List ℚ) (i : ℕ)
    (hi1 : i < strain.length) (hi2 : i < stress.length)
    (hcross : stress.getD i 0 - E * (strain.getD i 0 - n) < 0)
    (hbefore : ∀ j, j < i → 0 ≤ stress.getD j 0 - E * (strain.getD j 0 - n)) :
    offsetYieldPoint E strain stress n = some (strain.getD i 0, stress.getD i 0) ∧
    defineYieldStrength E strain stress = offsetYieldPoint E strain stress (0.002 : ℚ) := by
  constructor
  · unfold offsetYieldPoint
    rw [firstCrossIdx_eq_some E n strain stress i hi1 hi2 hcross hbefore]
    rfl
  · rfl

/-- Witness for C3 at a concrete curve whose first crossing is index 3. -/
theorem c3_offset_yield_is_first_crossing_witness :
    (3 < c3strain.length ∧
      c3stress.getD 3 0 - 1000 * (c3strain.getD 3 0 - 0.002) < 0) ∧
    offsetYieldPoint 1000 c3strain c3stress (0.002 : ℚ) =
      some (c3strain.getD 3 0, c3stress.getD 3 0) ∧
    defineYieldStrength 1000 c3strain c3stress =
      offsetYieldPoint 1000 c3strain c3stress (0.002 : ℚ) :=
  ⟨⟨by decide, by decide⟩,
   c3_offset_yield_is_first_crossing 1000 (0.002 : ℚ) c3strain c3stress 3
     (by decide) (by decide) (by decide) (by decide)⟩

/-- C6: when the curve never drops strictly below the offset elastic line,
`offsetYieldPoint(n)` produces no value, and the pipeline stage lifts this to
a hard `IndexError` rather than any default. -/
theorem c6_no_crossing_is_hard_error (E n : ℚ) (strain stress : List ℚ)
    (h : ∀ i, i < strain.length → i < stress.length →
      0 ≤ stress.getD i 0 - E * (strain.getD i 0 - n)) :
    offsetYieldPoint E strain stress n = none ∧
    toExcept "IndexError: index 0 is out of bounds" (offsetYieldPoint E strain stress n) =
      Except.error "IndexError: index 0 is out of bounds" := by
  have h1 : offsetYieldPoint E strain stress n = none := by
    unfold offsetYieldPoint
    rw [firstCrossIdx_eq_none E n strain stress h]
    rfl
  refine ⟨h1, ?_⟩
  rw [h1]
  rfl

/-- Witness for C6 at a concrete curve that never crosses. -/
theorem c6_no_crossing_is_hard_error_witness :
    (∀ i, i < c6strain.length → i < c6stress.length →
      0 ≤ c6stress.getD i 0 - 1000 * (c6strain.getD i 0 - 0.002)) ∧
    offsetYieldPoint 1000 c6strain c6stress (0.002 : ℚ) = none ∧
    toExcept "IndexError: index 0 is out of bounds"
      (offsetYieldPoint 1000 c6strain c6stress (0.002 : ℚ)) =
      Except.error "IndexError: index 0 is out of bounds" :=
  ⟨by decide,
   c6_no_crossing_is_hard_error 1000 (0.002 : ℚ) c6strain c6stress (by decide)⟩

/-- C9: on a sorted-strain curve with nonnegative elastic modulus, a larger
offset gives a crossing at the same or a later strain. -/
theorem c9_offset_crossing_monotone (E n1 n2 : ℚ) (strain stress : List ℚ)
    (hsorted : strain.Pairwise (· ≤ ·)) (hE : 0 ≤ E) (h12 : n1 ≤ n2)
    (p1 p2 : ℚ × ℚ)
    (h1 : offsetYieldPoint E strain stress n1 = some p1)
    (h2 : offsetYieldPoint E strain stress n2 = some p2) :
    p1.1 ≤ p2.1 := by
  unfold offsetYieldPoint at h1 h2
  cases hr1 : firstCrossIdx E n1 strain stress with
  | none => rw [hr1] at h1; cases h1
  | some i1 =>
    cases hr2 : firstCrossIdx E n2 strain stress with
    | none => rw [hr2] at h2; cases h2
    | some i2 =>
      rw [hr1, Option.map_some'] at h1
      rw [hr2, Option.map_some'] at h2
      cases h1
      cases h2
      exact getD_mono_of_pairwise strain hsorted i1 i2
        (firstCrossIdx_mono E hE n1 n2 h12 strain stress i1 i2 hr1 hr2)
        (firstCrossIdx_lt_length E n2 strain stress i2 hr2).1

/-- Witness for C9: offsets 0.001 and 0.002 cross at indices 3 and 4. -/
theorem c9_offset_crossing_monotone_witness :
    (c9strain.Pairwise (· ≤ ·) ∧ (0 : ℚ) ≤ 1000 ∧ (1 / 1000 : ℚ) ≤ 2 / 1000 ∧
      offsetYieldPoint 1000 c9strain c9stress (1 / 1000) = some (3 / 1000, 1) ∧
      offsetYieldPoint 1000 c9strain c9stress (2 / 1000) = some (4 / 1000, 0)) ∧
    ((3 / 1000 : ℚ), (1 : ℚ)).1 ≤ ((4 / 1000 : ℚ), (0 : ℚ)).1 :=
  ⟨⟨by decide, by decide, by decide, by decide, by decide⟩,
   c9_offset_crossing_monotone 1000 (1 / 1000) (2 / 1000) c9strain c9stress
     (by decide) (by decide) (by decide) (3 / 1000, 1) (4 / 1000, 0)
     (by decide) (by decide)⟩

/-- C8: for every curve with ascending strain and positive stress at every
sample, the resilience modulus (trapezoidal integral over the elastic
region) is at most the toughness modulus (trapezoidal integral over the
whole curve). -/
theorem c8_resilience_le_toughness (strain stress : List ℚ) (y : ℚ)
    (hsorted : strain.Pairwise (· ≤ ·)) (hpos : ∀ t ∈ stress, 0 < t) :
    defineResilienceModulus (elasticRegion strain stress y).1
      (elasticRegion strain stress y).2 ≤ defineToughnessModulus strain stress := by
  have hzs := pairwise_zip_left strain stress hsorted
  have hzy : ∀ p ∈ List.zip strain stress, 0 ≤ p.2 := by
    intro p hp
    obtain ⟨p1, p2⟩ := p
    exact le_of_lt (hpos p2 (List.of_mem_zip hp).2)
  simp only [defineResilienceModulus, defineToughnessModulus, elasticRegion, maskPairs]
  rw [zip_map_fst_snd_eq, filter_lt_eq_takeWhile y _ hzs]
  exact trapz_takeWhile_le _ _ hzs hzy

/-- Witness for C8 at a concrete ascending positive curve. -/
theorem c8_resilience_le_toughness_witness :
    (c8strain.Pairwise (· ≤ ·) ∧ ∀ t ∈ c8stress, 0 < t) ∧
    defineResilienceModulus (elasticRegion c8strain c8stress (3 / 2)).1
      (elasticRegion c8strain c8stress (3 / 2)).2 ≤
      defineToughnessModulus c8strain c8stress :=
  ⟨⟨by decide, by decide⟩,
   c8_resilience_le_toughness c8strain c8stress (3 / 2) (by decide) (by decide)⟩

/-- C7: for every input with `N ≤ 10` samples the proportionality-limit scan
never executes (`propScan` returns `none`, the model of the
`UnboundLocalError` raised when the loop body never assigned
`proportionalityLimitLocation`), and the pipeline aborts with that hard
failure instead of leaving the proportionality point or elastic modulus
defaulted. -/
theorem c7_short_input_fails_hard (force displacement time : List ℚ)
    (length diameter : ℚ) (rlog : ℚ → ℚ) (fit : List ℚ → List ℚ → ℚ × ℚ)
    (hN : force.length ≤ 10) :
    propScan (displacement.map (fun d => d / length))
      (force.map (fun f => f / (piFloat * diameter ^ 2 / 4))) = none ∧
    pipelineFromArrays force displacement time length diameter rlog fit =
      Except.error "UnboundLocalError: proportionalityLimitLocation" := by
  have hlen : (force.map (fun f => f / (piFloat * diameter ^ 2 / 4))).length ≤ 10 := by
    simpa using hN
  refine ⟨propScan_of_short _ _ hlen, ?_⟩
  unfold pipelineFromArrays
  simp [defineElasticModulusAndProportionalityLimit, propScan_of_short _ _ hlen,
    toExcept, Bind.bind, Except.bind]

/-- C5 (amended): a missing input column makes construction fail fast with
the corresponding `KeyError` raised by the column lookup, before any derived
stage runs.  Non-positive gauge length or diameter, by contrast, is not
validated anywhere: see `c5_geometry_counterexample`, where construction
with a negative gauge length completes every stage. -/
theorem c5_missing_column_fails_fast (df : List (String × List ℚ))
    (length diameter : ℚ) (rlog : ℚ → ℚ) (fit : List ℚ → List ℚ → ℚ × ℚ)
    (hmiss : lookupColumn df "force" = none ∨
      lookupColumn df "displacement" = none ∨ lookupColumn df "time" = none) :
    ∃ msg, tensileTest df length diameter rlog fit = Except.error msg ∧
      (msg = "KeyError: force" ∨ msg = "KeyError: displacement" ∨
        msg = "KeyError: time") := by
  cases hf : lookupColumn df "force" with
  | none =>
    refine ⟨"KeyError: force", ?_, Or.inl rfl⟩
    simp [tensileTest, readFromFile, toExcept, hf, Bind.bind, Except.bind]
  | some force =>
    cases hd : lookupColumn df "displacement" with
    | none =>
      refine ⟨"KeyError: displacement", ?_, Or.inr (Or.inl rfl)⟩
      simp [tensileTest, readFromFile, toExcept, hf, hd, Bind.bind, Except.bind]
    | some displacement =>
      cases ht : lookupColumn df "time" with
      | none =>
        refine ⟨"KeyError: time", ?_, Or.inr (Or.inr rfl)⟩
        simp [tensileTest, readFromFile, toExcept, hf, hd, ht, Bind.bind, Except.bind]
      | some time =>
        rcases hmiss with h | h | h
        · rw [hf] at h; cases h
        · rw [hd] at h; cases h
        · rw [ht] at h; cases h

/-- Witness for the amended C5 at a concrete input missing its force column. -/
theorem c5_missing_column_fails_fast_witness :
    (lookupColumn c5df "force" = none ∨ lookupColumn c5df "displacement" = none ∨
      lookupColumn c5df "time" = none) ∧
    (∃ msg, tensileTest c5df 1 1 rlog0 fit0 = Except.error msg ∧
      (msg = "KeyError: force" ∨ msg = "KeyError: displacement" ∨
        msg = "KeyError: time")) :=
  ⟨Or.inl (by decide),
   c5_missing_column_fails_fast c5df 1 1 rlog0 fit0 (Or.inl (by decide))⟩

/-- C5 counterexample: with the non-positive gauge length `-1000`,
construction does not fail at all — the reading, dimension, curve-building
and every later derived stage run, and the constructor returns a complete
record.  The claimed fail-fast validation of the geometry does not exist in
the code. -/
theorem c5_geometry_counterexample :
    (-1000 : ℚ) < 0 ∧
    ∃ r, tensileTest badGeomDf (-1000) 2 rlog0 fit0 = Except.ok r := by
  refine ⟨by decide,
    ⟨exceptGetD (tensileTest badGeomDf (-1000) 2 rlog0 fit0) emptyRecord, ?_⟩⟩
  rfl

/-- C10: the time column is stored in the record but never used by any
computation stage: two runs differing only in `time` produce records
identical in every other field, and fail identically when they fail. -/
theorem c10_time_never_used (force displacement t1 t2 : List ℚ)
    (length diameter : ℚ) (rlog : ℚ → ℚ) (fit : List ℚ → List ℚ → ℚ × ℚ) :
    Except.map stripTime
        (pipelineFromArrays force displacement t1 length diameter rlog fit) =
      Except.map stripTime
        (pipelineFromArrays force displacement t2 length diameter rlog fit) ∧
    (∀ r, pipelineFromArrays force displacement t1 length diameter rlog fit =
      Except.ok r → r.time = t1) := by
  constructor
  · rcases hscan : defineElasticModulusAndProportionalityLimit
        (displacement.map (fun d => d / length))
        (force.map (fun f => f / (piFloat * diameter ^ 2 / 4))) with _ | scanned
    · simp [pipelineFromArrays, toExcept, hscan, Bind.bind, Except.bind]
    · rcases hyld : defineYieldStrength scanned.1
          (displacement.map (fun d => d / length))
          (force.map (fun f => f / (piFloat * diameter ^ 2 / 4))) with _ | yield0
      · simp [pipelineFromArrays, toExcept, hscan, hyld, Bind.bind, Except.bind]
      · rcases hult : defineUltimateStrength
            (displacement.map (fun d => d / length))
            (force.map (fun f => f / (piFloat * diameter ^ 2 / 4))) with _ | ultimate
        · simp [pipelineFromArrays, toExcept, hscan, hyld, hult, Bind.bind, Except.bind]
        · rcases hhard : defineHardening fit rlog
              (plasticRegion (displacement.map (fun d => d / length))
                (force.map (fun f => f / (piFloat * diameter ^ 2 / 4)))
                (correctYieldStrength yield0 (scanned.2.1, scanned.2.2)
                  ultimate.1).1.1 ultimate.1).1
              (plasticRegion (displacement.map (fun d => d / length))
                (force.map (fun f => f / (piFloat * diameter ^ 2 / 4)))
                (correctYieldStrength yield0 (scanned.2.1, scanned.2.2)
                  ultimate.1).1.1 ultimate.1).2 with msg | K
          · simp [pipelineFromArrays, toExcept, hscan, hyld, hult, hhard,
              Bind.bind, Except.bind]
          · simp [pipelineFromArrays, toExcept, hscan, hyld, hult, hhard,
              Bind.bind, Except.bind, Except.map, assembleRecord, stripTime]
  · intro r hok
    obtain ⟨scanned, yield0, ultimate, K, _, _, _, _, hrec⟩ :=
      pipeline_ok_inversion hok
    rw [hrec]
    simp [assembleRecord]

/-- Witness for C10 at the concrete good curve against an all-zero time
column. -/
theorem c10_time_never_used_witness :
    Except.map stripTime
        (pipelineFromArrays goodForce goodDisplacement goodTime 1000 2 rlog0 fit0) =
      Except.map stripTime
        (pipelineFromArrays goodForce goodDisplacement
          ((List.range 20).map (fun _ => (0 : ℚ))) 1000 2 rlog0 fit0) ∧
    (∀ r, pipelineFromArrays goodForce goodDisplacement goodTime 1000 2 rlog0 fit0 =
      Except.ok r → r.time = goodTime) :=
  c10_time_never_used goodForce goodDisplacement goodTime
    ((List.range 20).map (fun _ => (0 : ℚ))) 1000 2 rlog0 fit0

/-- Witness for C7 at a concrete five-sample input. -/
theorem c7_short_input_fails_hard_witness :
    (([1, 2, 3, 4, 5] : List ℚ).length ≤ 10) ∧
    propScan (([0, 1, 2, 3, 4] : List ℚ).map (fun d => d / (1 : ℚ)))
      (([1, 2, 3, 4, 5] : List ℚ).map (fun f => f / (piFloat * (2 : ℚ) ^ 2 / 4))) = none ∧
    pipelineFromArrays [1, 2, 3, 4, 5] [0, 1, 2, 3, 4] [0, 0, 0, 0, 0] 1 2 rlog0 fit0 =
      Except.error "UnboundLocalError: proportionalityLimitLocation" :=
  ⟨by decide,
   c7_short_input_fails_hard [1, 2, 3, 4, 5] [0, 1, 2, 3, 4] [0, 0, 0, 0, 0] 1 2
     rlog0 fit0 (by decide)⟩

end MechTest
